import Mathlib

/-!
Verification of the two-party video-call signaling core.

The definitions below are a shallow embedding of the program's server-side
Socket.IO handler (room registry, signaling relay, leave/cleanup), its HTTP
call controller (room creation), and the client-side WebRTC session logic
(ICE-candidate buffer, adaptive-bitrate controller, remote-identity
resolution, client cleanup).  Opaque identifiers (user ids, socket ids,
room ids) are modelled as natural numbers; JavaScript Maps are modelled as
association lists with Map.set / Map.get / Map.delete semantics; wall-clock
timestamps used only for logging are omitted.
-/

namespace VideoCall

/-! ### Association lists modelling JavaScript Map objects -/

/-- Lookup in an association list, modelling Map.get. -/
def lookupA {α : Type} (k : Nat) : List (Nat × α) → Option α
  | [] => none
  | (k', v) :: rest => if k = k' then some v else lookupA k rest

/-- Insert or overwrite a binding, modelling Map.set (replace in place if
the key exists, otherwise append). -/
def setA {α : Type} (k : Nat) (v : α) : List (Nat × α) → List (Nat × α)
  | [] => [(k, v)]
  | (k', v') :: rest => if k = k' then (k, v) :: rest else (k', v') :: setA k v rest

/-- Remove a binding, modelling Map.delete. -/
def removeA {α : Type} (k : Nat) : List (Nat × α) → List (Nat × α)
  | [] => []
  | (k', v') :: rest => if k = k' then rest else (k', v') :: removeA k rest

theorem mem_setA {α : Type} {k : Nat} {v : α} {l : List (Nat × α)} {x : Nat × α}
    (hx : x ∈ setA k v l) : x = (k, v) ∨ x ∈ l := by
  induction l with
  | nil =>
    simp only [setA, List.mem_singleton] at hx
    exact Or.inl hx
  | cons hd tl ih =>
    obtain ⟨k', v'⟩ := hd
    simp only [setA] at hx
    by_cases h : k = k'
    · rw [if_pos h] at hx
      rcases List.mem_cons.1 hx with h1 | h2
      · exact Or.inl h1
      · exact Or.inr (List.mem_cons_of_mem _ h2)
    · rw [if_neg h] at hx
      rcases List.mem_cons.1 hx with h1 | h2
      · exact Or.inr (List.mem_cons.2 (Or.inl h1))
      · rcases ih h2 with h3 | h4
        · exact Or.inl h3
        · exact Or.inr (List.mem_cons_of_mem _ h4)

theorem mem_removeA {α : Type} {k : Nat} {l : List (Nat × α)} {x : Nat × α}
    (hx : x ∈ removeA k l) : x ∈ l := by
  induction l with
  | nil => simp [removeA] at hx
  | cons hd tl ih =>
    obtain ⟨k', v'⟩ := hd
    simp only [removeA] at hx
    by_cases h : k = k'
    · simp only [if_pos h] at hx
      exact List.mem_cons_of_mem _ hx
    · simp only [if_neg h, List.mem_cons] at hx
      rcases hx with h1 | h2
      · exact List.mem_cons.2 (Or.inl h1)
      · exact List.mem_cons_of_mem _ (ih h2)

theorem lookupA_setA_ne {α : Type} {k k' : Nat} (v : α) (l : List (Nat × α))
    (h : k ≠ k') : lookupA k (setA k' v l) = lookupA k l := by
  induction l with
  | nil => simp [setA, lookupA, h]
  | cons hd tl ih =>
    obtain ⟨k0, v0⟩ := hd
    by_cases h0 : k' = k0
    · subst h0
      simp [setA, lookupA, h]
    · simp only [setA, if_neg h0, lookupA]
      by_cases h1 : k = k0
      · simp [h1]
      · simp [h1, ih]

theorem lookupA_removeA_ne {α : Type} {k k' : Nat} (l : List (Nat × α))
    (h : k ≠ k') : lookupA k (removeA k' l) = lookupA k l := by
  induction l with
  | nil => simp [removeA]
  | cons hd tl ih =>
    obtain ⟨k0, v0⟩ := hd
    by_cases h0 : k' = k0
    · subst h0
      simp [removeA, lookupA, h]
    · simp only [removeA, if_neg h0, lookupA]
      by_cases h1 : k = k0
      · simp [h1]
      · simp [h1, ih]

theorem lookupA_mem {α : Type} {k : Nat} {l : List (Nat × α)} {v : α}
    (h : lookupA k l = some v) : (k, v) ∈ l := by
  induction l with
  | nil => simp [lookupA] at h
  | cons hd tl ih =>
    obtain ⟨k0, v0⟩ := hd
    simp only [lookupA] at h
    by_cases h0 : k = k0
    · simp only [if_pos h0] at h
      cases h
      exact List.mem_cons.2 (Or.inl (by simp [h0]))
    · simp only [if_neg h0] at h
      exact List.mem_cons_of_mem _ (ih h)

theorem setA_self {α : Type} {k : Nat} {l : List (Nat × α)} {v : α}
    (h : lookupA k l = some v) : setA k v l = l := by
  induction l with
  | nil => simp [lookupA] at h
  | cons hd tl ih =>
    obtain ⟨k0, v0⟩ := hd
    simp only [lookupA] at h
    by_cases h0 : k = k0
    · simp only [if_pos h0] at h
      cases h
      simp [setA, h0]
    · simp only [if_neg h0] at h
      simp [setA, h0, ih h]

/-! ### Server data model: room registry and connected users -/

/-- Room participant entry pushed by the join-room handler.  The joinedAt
timestamp (logging only) is omitted. -/
structure Member where
  odtId : Nat
  socketId : Nat
  userName : String
  deriving DecidableEq, Repr

/-- Room record stored in activeRooms by the call controller's createRoom. -/
structure Room where
  createdBy : Nat
  createdAt : Nat
  participants : List Member
  deriving DecidableEq, Repr

/-- Per-connection record stored in connectedUsers.  The userName field is
optional because the join-room handler spreads a possibly absent record;
connectedAt / joinedRoomAt / leftRoomAt timestamps (logging only) are
omitted. -/
structure UserInfo where
  socketId : Nat
  userName : Option String
  roomId : Option Nat
  deriving DecidableEq, Repr

/-- The server's process-wide mutable state: the activeRooms map owned by
the call controller and the connectedUsers map of the socket handler. -/
structure ServerState where
  activeRooms : List (Nat × Room)
  connectedUsers : List (Nat × UserInfo)
  deriving DecidableEq, Repr

/-- Messages emitted by the socket handler to clients. -/
inductive Msg where
  | errorMsg (toUid : Nat) (text : String)
  | userJoined (roomId odtId : Nat) (userName : String)
  | roomUsers (toUid : Nat) (participants : List Member)
  | userLeft (roomId odtId : Nat) (userName : String) (reason : String)
  | userToggleMedia (roomId odtId : Nat) (mediaType : String) (enabled : Bool)
  deriving DecidableEq, Repr

/-- The handleUserLeave helper of the socket handler: remove the user from
the room's participant list, emit user-left to the remaining members only
if membership actually changed, delete the room if its participant list is
now empty, and clear the user's room association in connectedUsers.  The
cleanupInProgress marker set only collapses concurrent duplicate
invocations and is invisible to this sequential model: within one call the
key is added and then removed unconditionally in the finally block. -/
def handleUserLeave (s : ServerState) (uid _sid : Nat) (name : String)
    (roomId : Nat) (reason : String) : ServerState × List Msg :=
  match lookupA roomId s.activeRooms with
  | none =>
    let users := match lookupA uid s.connectedUsers with
      | some info => setA uid { info with roomId := none } s.connectedUsers
      | none => s.connectedUsers
    ({ s with connectedUsers := users }, [])
  | some room =>
    let beforeCount := room.participants.length
    let newParticipants := room.participants.filter (fun p => p.odtId != uid)
    let afterCount := newParticipants.length
    let msgs :=
      if beforeCount ≠ afterCount then [Msg.userLeft roomId uid name reason] else []
    let rooms :=
      if afterCount = 0 then removeA roomId s.activeRooms
      else setA roomId { room with participants := newParticipants } s.activeRooms
    let users := match lookupA uid s.connectedUsers with
      | some info => setA uid { info with roomId := none } s.connectedUsers
      | none => s.connectedUsers
    ({ activeRooms := rooms, connectedUsers := users }, msgs)

/-- Second half of the join-room socket handler, after the force-leave of
any previous room: guard against a duplicate join by the same user, append
the member, update the connected-user record from staleInfo (the record
captured before the force-leave, which the source spreads into the new
record), and emit user-joined to the existing members plus room-users
(excluding the joiner) to the joiner.  In the source, the room object is
held by reference across the force-leave; here it is re-looked-up, which
agrees because the force-leave only touches a different room key (the none
branch is unreachable). -/
def joinRoomFinish (s1 : ServerState) (uid sid : Nat) (name : String)
    (roomId : Nat) (staleInfo : Option UserInfo) : ServerState × List Msg :=
  match lookupA roomId s1.activeRooms with
  | none => (s1, [])
  | some room1 =>
    if room1.participants.any (fun p => p.odtId == uid) then
      (s1,
        [Msg.errorMsg uid "You are already in this room from another tab. Please use a different browser or incognito window to test with a second user."])
    else
      let member : Member := { odtId := uid, socketId := sid, userName := name }
      let newRoom := { room1 with participants := room1.participants ++ [member] }
      let rooms := setA roomId newRoom s1.activeRooms
      let users :=
        setA uid
          { socketId := sid,
            userName := Option.bind staleInfo (fun i => i.userName),
            roomId := some roomId } s1.connectedUsers
      let others := newRoom.participants.filter (fun p => p.odtId != uid)
      ({ activeRooms := rooms, connectedUsers := users },
        [Msg.userJoined roomId uid name, Msg.roomUsers uid others])

/-- The join-room socket handler.  It validates room existence and
capacity (before any mutation), force-leaves any previous room
(switch-room semantics), and then completes the join via joinRoomFinish. -/
def joinRoomHandler (s : ServerState) (uid sid : Nat) (name : String)
    (roomId : Nat) : ServerState × List Msg :=
  match lookupA roomId s.activeRooms with
  | none => (s, [Msg.errorMsg uid "Room does not exist"])
  | some room =>
    if 2 ≤ room.participants.length then
      (s, [Msg.errorMsg uid "Room is full"])
    else
      let userInfo := lookupA uid s.connectedUsers
      let leaveResult :=
        match userInfo with
        | some info =>
          match info.roomId with
          | some prev =>
            if prev ≠ roomId then handleUserLeave s uid sid name prev "switching rooms"
            else (s, ([] : List Msg))
          | none => (s, ([] : List Msg))
        | none => (s, ([] : List Msg))
      let finish := joinRoomFinish leaveResult.1 uid sid name roomId userInfo
      (finish.1, leaveResult.2 ++ finish.2)

/-- Events processed by the server: socket connection establishment, HTTP
room creation, the socket event handlers, socket disconnection, and the
periodic stale-room sweep (now is the current time in milliseconds). -/
inductive SEvent where
  | connect (uid sid : Nat) (name : String)
  | createRoom (uid roomId now : Nat)
  | joinRoom (uid sid : Nat) (name : String) (roomId : Nat)
  | leaveRoom (uid sid : Nat) (name : String) (roomId : Nat)
  | toggleMedia (uid roomId : Nat) (mediaType : String) (enabled : Bool)
  | disconnect (uid sid : Nat) (name : String) (reason : String)
  | sweep (now : Nat)

/-- One step of the server: dispatch an event to its handler, returning the
new state and the emitted messages. -/
def stepEvent (s : ServerState) : SEvent → ServerState × List Msg
  | .connect uid sid name =>
    let info : UserInfo := { socketId := sid, userName := some name, roomId := none }
    ({ s with connectedUsers := setA uid info s.connectedUsers }, [])
  | .createRoom uid roomId now =>
    let room : Room := { createdBy := uid, createdAt := now, participants := [] }
    ({ s with activeRooms := setA roomId room s.activeRooms }, [])
  | .joinRoom uid sid name roomId => joinRoomHandler s uid sid name roomId
  | .leaveRoom uid sid name roomId => handleUserLeave s uid sid name roomId "user left"
  | .toggleMedia uid roomId mediaType enabled =>
    (s, [Msg.userToggleMedia roomId uid mediaType enabled])
  | .disconnect uid sid name reason =>
    let leaveResult :=
      match lookupA uid s.connectedUsers with
      | some info =>
        match info.roomId with
        | some rid => handleUserLeave s uid sid name rid ("disconnect: " ++ reason)
        | none => (s, ([] : List Msg))
      | none => (s, ([] : List Msg))
    ({ leaveResult.1 with
        connectedUsers := removeA uid leaveResult.1.connectedUsers },
      leaveResult.2)
  | .sweep now =>
    let keep : Nat × Room → Bool := fun pr =>
      !(pr.2.participants.length == 0 && decide (24 * 3600000 < now - pr.2.createdAt))
    ({ s with activeRooms := s.activeRooms.filter keep }, [])

/-- The server starts with no rooms and no connected users. -/
def initState : ServerState := { activeRooms := [], connectedUsers := [] }

/-- State reached after a sequence of events, ignoring emitted messages. -/
def stepState (s : ServerState) (e : SEvent) : ServerState := (stepEvent s e).1

/-- Run the server from the initial state over a list of events. -/
def runEvents (evs : List SEvent) : ServerState := evs.foldl stepState initState

/-! ### Room-capacity invariant -/

/-- Every room in the registry has at most two participants. -/
def roomsBounded (s : ServerState) : Prop :=
  ∀ pr ∈ s.activeRooms, pr.2.participants.length ≤ 2

/-- The registry after handleUserLeave, spelled out. -/
theorem handleUserLeave_activeRooms (s : ServerState) (uid sid : Nat) (name : String)
    (roomId : Nat) (reason : String) :
    (handleUserLeave s uid sid name roomId reason).1.activeRooms =
      match lookupA roomId s.activeRooms with
      | none => s.activeRooms
      | some room =>
        if (room.participants.filter (fun p => p.odtId != uid)).length = 0 then
          removeA roomId s.activeRooms
        else
          setA roomId
            { room with participants := room.participants.filter (fun p => p.odtId != uid) }
            s.activeRooms := by
  unfold handleUserLeave
  cases lookupA roomId s.activeRooms <;> rfl

/-- The notifications emitted by handleUserLeave, spelled out. -/
theorem handleUserLeave_msgs (s : ServerState) (uid sid : Nat) (name : String)
    (roomId : Nat) (reason : String) :
    (handleUserLeave s uid sid name roomId reason).2 =
      match lookupA roomId s.activeRooms with
      | none => []
      | some room =>
        if room.participants.length ≠
            (room.participants.filter (fun p => p.odtId != uid)).length then
          [Msg.userLeft roomId uid name reason]
        else [] := by
  unfold handleUserLeave
  cases lookupA roomId s.activeRooms <;> rfl

/-- Leaving never pushes a room above the capacity bound. -/
theorem handleUserLeave_bounded (s : ServerState) (uid sid : Nat) (name : String)
    (roomId : Nat) (reason : String) (h : roomsBounded s) :
    roomsBounded (handleUserLeave s uid sid name roomId reason).1 := by
  intro pr hpr
  rw [handleUserLeave_activeRooms] at hpr
  cases hr : lookupA roomId s.activeRooms with
  | none =>
    rw [hr] at hpr
    exact h pr hpr
  | some room =>
    rw [hr] at hpr
    dsimp only at hpr
    by_cases hz : (room.participants.filter (fun p => p.odtId != uid)).length = 0
    · rw [if_pos hz] at hpr
      exact h pr (mem_removeA hpr)
    · rw [if_neg hz] at hpr
      rcases mem_setA hpr with he | hm
      · have hb := h (roomId, room) (lookupA_mem hr)
        rw [he]
        exact le_trans (List.length_filter_le _ _) hb
      · exact h pr hm

/-- Leaving one room does not change the registry entry of another room. -/
theorem handleUserLeave_lookup_other (s : ServerState) (uid sid : Nat) (name : String)
    (prev : Nat) (reason : String) (rid : Nat) (hne : rid ≠ prev) :
    lookupA rid (handleUserLeave s uid sid name prev reason).1.activeRooms =
      lookupA rid s.activeRooms := by
  rw [handleUserLeave_activeRooms]
  cases lookupA prev s.activeRooms with
  | none => rfl
  | some room =>
    dsimp only
    by_cases hz : (room.participants.filter (fun p => p.odtId != uid)).length = 0
    · rw [if_pos hz, lookupA_removeA_ne _ hne]
    · rw [if_neg hz, lookupA_setA_ne _ _ hne]

/-- Completing a join preserves the capacity bound provided the target
room is strictly below capacity. -/
theorem joinRoomFinish_bounded (s1 : ServerState) (uid sid : Nat) (name : String)
    (roomId : Nat) (staleInfo : Option UserInfo) (h : roomsBounded s1)
    (hlt : ∀ room1, lookupA roomId s1.activeRooms = some room1 →
      room1.participants.length < 2) :
    roomsBounded (joinRoomFinish s1 uid sid name roomId staleInfo).1 := by
  intro pr hpr
  unfold joinRoomFinish at hpr
  cases hr : lookupA roomId s1.activeRooms with
  | none =>
    rw [hr] at hpr
    exact h pr hpr
  | some room1 =>
    rw [hr] at hpr
    dsimp only at hpr
    by_cases hdup : room1.participants.any (fun p => p.odtId == uid)
    · rw [if_pos hdup] at hpr
      exact h pr hpr
    · rw [if_neg hdup] at hpr
      rcases mem_setA hpr with he | hm
      · rw [he]
        have := hlt room1 hr
        simp only [List.length_append, List.length_singleton]
        omega
      · exact h pr hm

/-- The join-room handler preserves the capacity bound. -/
theorem joinRoomHandler_bounded (s : ServerState) (uid sid : Nat) (name : String)
    (roomId : Nat) (h : roomsBounded s) :
    roomsBounded (joinRoomHandler s uid sid name roomId).1 := by
  unfold joinRoomHandler
  cases hr : lookupA roomId s.activeRooms with
  | none => exact h
  | some room =>
    dsimp only
    by_cases hfull : 2 ≤ room.participants.length
    · rw [if_pos hfull]
      exact h
    · rw [if_neg hfull]
      have hroomlt : room.participants.length < 2 := by omega
      cases hinfo : lookupA uid s.connectedUsers with
      | none =>
        dsimp only
        exact joinRoomFinish_bounded _ _ _ _ _ _ h
          (fun room1 hr1 => by rw [hr] at hr1; cases hr1; exact hroomlt)
      | some info =>
        dsimp only
        cases hprev : info.roomId with
        | none =>
          dsimp only
          exact joinRoomFinish_bounded _ _ _ _ _ _ h
            (fun room1 hr1 => by rw [hr] at hr1; cases hr1; exact hroomlt)
        | some prev =>
          dsimp only
          by_cases hpr : prev ≠ roomId
          · rw [if_pos hpr]
            refine joinRoomFinish_bounded _ _ _ _ _ _
              (handleUserLeave_bounded _ _ _ _ _ _ h) ?_
            intro room1 hr1
            rw [handleUserLeave_lookup_other _ _ _ _ _ _ _ (Ne.symm hpr), hr] at hr1
            cases hr1
            exact hroomlt
          · rw [if_neg hpr]
            exact joinRoomFinish_bounded _ _ _ _ _ _ h
              (fun room1 hr1 => by rw [hr] at hr1; cases hr1; exact hroomlt)

/-- Every single server step preserves the capacity bound. -/
theorem stepState_bounded (s : ServerState) (e : SEvent) (h : roomsBounded s) :
    roomsBounded (stepState s e) := by
  cases e with
  | connect uid sid name => exact h
  | createRoom uid roomId now =>
    intro pr hpr
    rcases mem_setA hpr with he | hm
    · rw [he]
      simp
    · exact h pr hm
  | joinRoom uid sid name roomId => exact joinRoomHandler_bounded s uid sid name roomId h
  | leaveRoom uid sid name roomId => exact handleUserLeave_bounded s uid sid name roomId _ h
  | toggleMedia uid roomId mediaType enabled => exact h
  | disconnect uid sid name reason =>
    intro pr hpr
    unfold stepState stepEvent at hpr
    dsimp only at hpr
    cases hinfo : lookupA uid s.connectedUsers with
    | none =>
      rw [hinfo] at hpr
      exact h pr hpr
    | some info =>
      rw [hinfo] at hpr
      dsimp only at hpr
      cases hprev : info.roomId with
      | none =>
        rw [hprev] at hpr
        exact h pr hpr
      | some rid =>
        rw [hprev] at hpr
        exact handleUserLeave_bounded s uid sid name rid _ h pr hpr
  | sweep now =>
    intro pr hpr
    exact h pr (List.mem_of_mem_filter hpr)

/-- Any state reachable from the empty initial state keeps every room at
or below two participants. -/
theorem runEvents_bounded (evs : List SEvent) : roomsBounded (runEvents evs) := by
  unfold runEvents
  have hstep : ∀ l : List SEvent, ∀ s : ServerState, roomsBounded s →
      roomsBounded (l.foldl stepState s) := by
    intro l
    induction l with
    | nil => intro s hs; exact hs
    | cons e rest ih =>
      intro s hs
      exact ih _ (stepState_bounded s e hs)
  exact hstep evs initState (by intro pr hpr; simp [initState] at hpr)

/-! ### Signaling relay identity stamping -/

/-- The authenticated user attached to a socket connection by the auth
middleware (socket.user). -/
structure AuthUser where
  id : Nat
  name : String
  deriving DecidableEq, Repr

/-- Inbound offer payload: the destructured offer/to/roomId fields plus
claimed sender fields a client might include, which the handler never
reads (toId is the JS field named to, a keyword here). -/
structure OfferPayload where
  offer : String
  toId : Option Nat
  roomId : Nat
  claimedFrom : Option Nat
  claimedName : Option String
  deriving DecidableEq, Repr

/-- Inbound answer payload, analogous to OfferPayload. -/
structure AnswerPayload where
  answer : String
  toId : Option Nat
  roomId : Nat
  claimedFrom : Option Nat
  claimedName : Option String
  deriving DecidableEq, Repr

/-- Inbound ice-candidate payload, analogous to OfferPayload. -/
structure CandidatePayload where
  candidate : String
  roomId : Nat
  claimedFrom : Option Nat
  deriving DecidableEq, Repr

/-- An outbound relayed signaling message: the forwarded body plus the
sender identity stamped by the server; relayed ICE candidates carry no
userName. -/
structure RelayedMsg where
  roomId : Nat
  body : String
  fromId : Nat
  userName : Option String
  deriving DecidableEq, Repr

/-- The offer handler: broadcast to the sender's room with from and
userName taken from the authenticated socket.user. -/
def relayOffer (u : AuthUser) (p : OfferPayload) : RelayedMsg :=
  { roomId := p.roomId, body := p.offer, fromId := u.id, userName := some u.name }

/-- The answer handler, stamped like the offer handler. -/
def relayAnswer (u : AuthUser) (p : AnswerPayload) : RelayedMsg :=
  { roomId := p.roomId, body := p.answer, fromId := u.id, userName := some u.name }

/-- The ice-candidate handler: stamped with the authenticated id only. -/
def relayIceCandidate (u : AuthUser) (p : CandidatePayload) : RelayedMsg :=
  { roomId := p.roomId, body := p.candidate, fromId := u.id, userName := none }

/-! ### Adaptive bitrate controller (useWebRTC) -/

/-- BITRATE_CONFIG.START, in bps. -/
def BITRATE_START : Nat := 3500000

/-- BITRATE_CONFIG.MAX_GOOD. -/
def BITRATE_MAX_GOOD : Nat := 5000000

/-- BITRATE_CONFIG.MEDIUM. -/
def BITRATE_MEDIUM : Nat := 2000000

/-- BITRATE_CONFIG.POOR. -/
def BITRATE_POOR : Nat := 800000

/-- BITRATE_CONFIG.TURN_CAP. -/
def BITRATE_TURN_CAP : Nat := 1500000

/-- NETWORK_THRESHOLDS.GOOD_RTT, in ms. -/
def GOOD_RTT : ℚ := 100

/-- NETWORK_THRESHOLDS.MEDIUM_RTT, in ms. -/
def MEDIUM_RTT : ℚ := 250

/-- NETWORK_THRESHOLDS.GOOD_PACKET_LOSS, a fraction. -/
def GOOD_PACKET_LOSS : ℚ := 2 / 100

/-- NETWORK_THRESHOLDS.MEDIUM_PACKET_LOSS, a fraction. -/
def MEDIUM_PACKET_LOSS : ℚ := 5 / 100

/-- The three-valued quality variable of calculateTargetBitrate (the JS
string values good / medium / poor). -/
inductive NetworkQuality where
  | good
  | medium
  | poor
  deriving DecidableEq, Repr

/-- Quality classification from calculateTargetBitrate: poor when
rtt exceeds MEDIUM_RTT or loss exceeds MEDIUM_PACKET_LOSS, else medium
when rtt exceeds GOOD_RTT or loss exceeds GOOD_PACKET_LOSS, else good.
Sampled rtt and loss are rationals standing for the JS float values. -/
def classifyQuality (rtt packetLossRate : ℚ) : NetworkQuality :=
  if rtt > MEDIUM_RTT ∨ packetLossRate > MEDIUM_PACKET_LOSS then NetworkQuality.poor
  else if rtt > GOOD_RTT ∨ packetLossRate > GOOD_PACKET_LOSS then NetworkQuality.medium
  else NetworkQuality.good

/-- The switch statement mapping quality to the bitrate table. -/
def qualityBitrate : NetworkQuality → Nat
  | NetworkQuality.good => BITRATE_MAX_GOOD
  | NetworkQuality.medium => BITRATE_MEDIUM
  | NetworkQuality.poor => BITRATE_POOR

/-- calculateTargetBitrate: classify, map through the table, and cap the
result at BITRATE_TURN_CAP when a TURN relay is in use. -/
def calculateTargetBitrate (rtt packetLossRate : ℚ) (isUsingTurn : Bool) : Nat :=
  let targetBitrate := qualityBitrate (classifyQuality rtt packetLossRate)
  if isUsingTurn = true ∧ targetBitrate > BITRATE_TURN_CAP then BITRATE_TURN_CAP
  else targetBitrate

/-- One sample of transport statistics, as produced by
analyzeNetworkQuality. -/
structure Sample where
  rtt : ℚ
  packetLossRate : ℚ
  deriving DecidableEq, Repr

/-- Controller state: the currently applied bitrate (currentBitrateRef)
and whether a TURN relay was detected (isUsingTurnRef). -/
structure CtrlState where
  currentBitrate : Nat
  isUsingTurn : Bool
  deriving DecidableEq, Repr

/-- One 3-second tick of the adaptive-bitrate interval: compute the
target and apply it only when it differs from the currently applied value
by more than 10 percent.  The JS float test
Math.abs(target - current) / current > 0.1 is embedded exactly as
10 * |target - current| > current (the sampled values make the quotient
rationally bounded away from 0.1, so the float comparison agrees). -/
def controllerTick (st : CtrlState) (sm : Sample) : CtrlState × Option Nat :=
  let targetBitrate := calculateTargetBitrate sm.rtt sm.packetLossRate st.isUsingTurn
  if st.currentBitrate <
      10 * (max targetBitrate st.currentBitrate - min targetBitrate st.currentBitrate) then
    ({ st with currentBitrate := targetBitrate }, some targetBitrate)
  else (st, none)

/-- Run the interval ticks over a list of samples, collecting each
application as a pair (previously applied value, newly applied value). -/
def ticksRun (st : CtrlState) : List Sample → CtrlState × List (Nat × Nat)
  | [] => (st, [])
  | sm :: rest =>
    match controllerTick st sm with
    | (st1, some b) =>
      let r := ticksRun st1 rest
      (r.1, (st.currentBitrate, b) :: r.2)
    | (st1, none) => ticksRun st1 rest

/-- startAdaptiveBitrate: unconditionally apply BITRATE_START (the
initial applyBitrate call, which also sets currentBitrateRef), then run
the periodic ticks.  c0 is the value of currentBitrateRef when the
controller starts (BITRATE_START on a fresh session) and isUsingTurn the
value of isUsingTurnRef for the run.  Returns the final state and the
(previous, applied) pairs of every bitrate application, in order. -/
def startAdaptiveBitrate (isUsingTurn : Bool) (c0 : Nat) (samples : List Sample) :
    CtrlState × List (Nat × Nat) :=
  let st1 : CtrlState := { currentBitrate := BITRATE_START, isUsingTurn := isUsingTurn }
  let r := ticksRun st1 samples
  (r.1, (c0, BITRATE_START) :: r.2)

/-! ### ICE candidate buffer (useWebRTC) -/

/-- Candidate-buffer state: the pendingIceCandidates queue, the snapshot
a running flush is iterating over, the candidates applied to the peer
connection so far (in application order), and whether the remote
description has been set.  Candidates are named by numbers. -/
structure BufState where
  pending : List Nat
  flushing : List Nat
  applied : List Nat
  remoteDescriptionSet : Bool
  deriving DecidableEq, Repr

/-- Buffer events: handleIceCandidate receiving a candidate,
createPeerConnection clearing the queue, setRemoteDescription completing,
flushPendingIceCandidates starting, and one iteration of the flush loop. -/
inductive BufEv where
  | recv (c : Nat)
  | createPC
  | setRemote
  | flushStart
  | flushStep
  deriving DecidableEq, Repr

/-- Single step of the buffer.  recv follows handleIceCandidate: with no
peer connection or no remote description the candidate is pushed onto the
queue, otherwise it is applied immediately.  createPC follows
createPeerConnection, which resets the queue.  flushStart follows
flushPendingIceCandidates: it returns early unless the remote description
is set, and otherwise takes the whole queue as its working snapshot,
clearing the queue before anything is applied (a concurrently started
second pass is modelled by appending its snapshot).  flushStep applies
the next snapshotted candidate. -/
def stepBuf (s : BufState) : BufEv → BufState
  | .recv c =>
    if s.remoteDescriptionSet then { s with applied := s.applied ++ [c] }
    else { s with pending := s.pending ++ [c] }
  | .createPC => { s with pending := [] }
  | .setRemote => { s with remoteDescriptionSet := true }
  | .flushStart =>
    if s.remoteDescriptionSet then
      { s with flushing := s.flushing ++ s.pending, pending := [] }
    else s
  | .flushStep =>
    match s.flushing with
    | [] => s
    | c :: rest => { s with flushing := rest, applied := s.applied ++ [c] }

/-- Run the buffer over a list of events. -/
def runBuf (s : BufState) (evs : List BufEv) : BufState := evs.foldl stepBuf s

/-- Fresh session: empty queue, nothing applied, no remote description. -/
def initBuf : BufState :=
  { pending := [], flushing := [], applied := [], remoteDescriptionSet := false }

/-! ### Remote-identity resolution (CallRoom) -/

/-- Remote participant identity stored in the remoteUser state. -/
structure RemoteUser where
  odtId : Nat
  userName : String
  deriving DecidableEq, Repr

/-- Role stored in roleRef. -/
inductive Role where
  | caller
  | joiner
  deriving DecidableEq, Repr

/-- Client identity state: remoteUser, the identity lock
(remoteUserLockedRef), and the role (roleRef). -/
structure ClientSession where
  remoteUser : Option RemoteUser
  remoteUserLocked : Bool
  role : Option Role
  deriving DecidableEq, Repr

/-- safeSetRemoteUser: refuse to store our own identity, refuse to
overwrite once locked, otherwise store the identity and set the lock when
the event is a locking one.  Returns the updated session and whether the
update was applied. -/
def safeSetRemoteUser (currentUserId : Nat) (s : ClientSession)
    (odtId : Nat) (userName : String) (canLock : Bool) : ClientSession × Bool :=
  if odtId = currentUserId then (s, false)
  else if s.remoteUserLocked then (s, false)
  else
    ({ s with
        remoteUser := some { odtId := odtId, userName := userName },
        remoteUserLocked := if canLock then true else s.remoteUserLocked },
      true)

/-- Socket events that touch the identity state in CallRoom. -/
inductive CEvent where
  | userJoined (odtId : Nat) (userName : String)
  | receiveOffer (fromId : Nat) (userName : String)
  | receiveAnswer (fromId : Nat) (userName : String)
  | userLeft
  | roomUsers (participants : List RemoteUser)
  deriving DecidableEq, Repr

/-- Identity effect of each CallRoom socket handler.  user-joined sets
role to caller and applies the joining user's identity as a locking
event; offer/answer apply the sender identity as a locking fallback only
while unlocked; user-left clears the identity, the lock and the role;
room-users filters out the local user, sets role to joiner and applies
the first remaining participant as a locking event. -/
def stepClient (currentUserId : Nat) (s : ClientSession) : CEvent → ClientSession
  | .userJoined odtId userName =>
    let s1 := { s with role := some Role.caller }
    (safeSetRemoteUser currentUserId s1 odtId userName true).1
  | .receiveOffer fromId userName =>
    if s.remoteUserLocked then s
    else (safeSetRemoteUser currentUserId s fromId userName true).1
  | .receiveAnswer fromId userName =>
    if s.remoteUserLocked then s
    else (safeSetRemoteUser currentUserId s fromId userName true).1
  | .userLeft => { remoteUser := none, remoteUserLocked := false, role := none }
  | .roomUsers participants =>
    if 0 < participants.length then
      let others := participants.filter (fun p => p.odtId != currentUserId)
      if 0 < others.length then
        let s1 := { s with role := some Role.joiner }
        match others with
        | existingUser :: _ =>
          (safeSetRemoteUser currentUserId s1 existingUser.odtId existingUser.userName true).1
        | [] => s1
      else s
    else s

/-- Fresh session state on entering a room. -/
def initSession : ClientSession :=
  { remoteUser := none, remoteUserLocked := false, role := none }

/-- Run the client identity state over a list of socket events. -/
def runClient (currentUserId : Nat) (evs : List CEvent) : ClientSession :=
  evs.foldl (stepClient currentUserId) initSession

/-! ### Client cleanup (CallRoom performCleanup) -/

/-- Observable actions of performCleanup. -/
inductive CleanupAction where
  | emitLeaveRoom (roomId : Nat)
  | webrtcCleanup
  deriving DecidableEq, Repr

/-- performCleanup: guarded by cleanupPerformedRef; on its first run it
emits leave-room (when both the socket ref and the room id ref are
non-null) and then runs the WebRTC cleanup; once the flag is set every
further call returns immediately.  Returns the new flag and the actions
performed. -/
def performCleanup (cleanupPerformed : Bool) (socketPresent : Bool)
    (roomId : Option Nat) : Bool × List CleanupAction :=
  if cleanupPerformed then (true, [])
  else
    (true,
      (match socketPresent, roomId with
        | true, some rid => [CleanupAction.emitLeaveRoom rid]
        | _, _ => []) ++ [CleanupAction.webrtcCleanup])

/-- A sequence of performCleanup invocations within one call session
(the flag is reset only by starting a new session); each invocation
carries the socket presence and room id it observes. -/
def runCleanups (flag : Bool) : List (Bool × Option Nat) → Bool × List CleanupAction
  | [] => (flag, [])
  | (sp, rid) :: rest =>
    let r := performCleanup flag sp rid
    let rr := runCleanups r.1 rest
    (rr.1, r.2 ++ rr.2)

/-! ### Claim C1: room capacity invariant -/

/-- C1: in every reachable state of the room registry every room's
participant list has length at most 2, and the join-room handler refuses
a room that already has 2 participants, emitting an error and leaving the
whole state unchanged (the reachability induction covers every other
operation, so no other operation grows a participant list beyond the
bound). -/
theorem C1_room_capacity_invariant :
    (∀ evs : List SEvent, ∀ pr ∈ (runEvents evs).activeRooms,
      pr.2.participants.length ≤ 2) ∧
    (∀ (s : ServerState) (uid sid : Nat) (name : String) (roomId : Nat) (room : Room),
      lookupA roomId s.activeRooms = some room → 2 ≤ room.participants.length →
      stepEvent s (SEvent.joinRoom uid sid name roomId) =
        (s, [Msg.errorMsg uid "Room is full"])) := by
  constructor
  · intro evs pr hpr
    exact runEvents_bounded evs pr hpr
  · intro s uid sid name roomId room hr hfull
    show joinRoomHandler s uid sid name roomId = _
    unfold joinRoomHandler
    rw [hr]
    dsimp only
    rw [if_pos hfull]

/-- Witness for C1: a concrete reachable state with one occupied room. -/
theorem C1_witness :
    ((5 : Nat),
      ({ createdBy := 1, createdAt := 0,
         participants := [{ odtId := 2, socketId := 7, userName := "b" }] } : Room)).2.participants.length ≤ 2 :=
  C1_room_capacity_invariant.1
    [SEvent.createRoom 1 5 0, SEvent.connect 2 7 "b", SEvent.joinRoom 2 7 "b" 5]
    _ (by decide)

/-! ### Claim C9: failed joins do not mutate the registry -/

/-- C9: a join request naming a nonexistent or full room leaves the whole
server state unchanged (no room changes, no room is created or deleted,
and the requester's existing membership is untouched) and emits exactly
one error message to the requester. -/
theorem C9_failed_join_frame :
    ∀ (s : ServerState) (uid sid : Nat) (name : String) (roomId : Nat),
      (lookupA roomId s.activeRooms = none ∨
        ∃ room, lookupA roomId s.activeRooms = some room ∧
          2 ≤ room.participants.length) →
      (stepEvent s (SEvent.joinRoom uid sid name roomId)).1 = s ∧
      ∃ text, (stepEvent s (SEvent.joinRoom uid sid name roomId)).2 =
        [Msg.errorMsg uid text] := by
  intro s uid sid name roomId h
  have key : stepEvent s (SEvent.joinRoom uid sid name roomId) =
      (s, [Msg.errorMsg uid "Room does not exist"]) ∨
      stepEvent s (SEvent.joinRoom uid sid name roomId) =
      (s, [Msg.errorMsg uid "Room is full"]) := by
    rcases h with hn | ⟨room, hr, hfull⟩
    · left
      show joinRoomHandler s uid sid name roomId = _
      unfold joinRoomHandler
      rw [hn]
    · right
      show joinRoomHandler s uid sid name roomId = _
      unfold joinRoomHandler
      rw [hr]
      dsimp only
      rw [if_pos hfull]
  rcases key with hk | hk <;> rw [hk]
  · exact ⟨rfl, "Room does not exist", rfl⟩
  · exact ⟨rfl, "Room is full", rfl⟩

/-- Witness for C9: joining a room that was never created. -/
theorem C9_witness :
    (stepEvent initState (SEvent.joinRoom 1 2 "a" 3)).1 = initState ∧
    ∃ text, (stepEvent initState (SEvent.joinRoom 1 2 "a" 3)).2 =
      [Msg.errorMsg 1 text] :=
  C9_failed_join_frame initState 1 2 "a" 3 (Or.inl (by decide))

/-! ### Claim C5: duplicate leave -/

/-- C5 counterexample: with one freshly created room that has no members,
a leave by a user who was never a member emits no notification, yet it
deletes the room, so the registry is not left unchanged as claimed. -/
theorem C5_counterexample :
    (handleUserLeave (runEvents [SEvent.createRoom 1 5 0]) 2 9 "b" 5 "user left").2 = [] ∧
    (handleUserLeave (runEvents [SEvent.createRoom 1 5 0]) 2 9 "b" 5 "user left").1.activeRooms = [] ∧
    (runEvents [SEvent.createRoom 1 5 0]).activeRooms ≠ [] := by
  refine ⟨by decide, by decide, by decide⟩

/-- C5 (amended): a leave whose participant is not a member of the named
room emits zero user-left notifications; the registry is unchanged when
the room does not exist or still has members, while a named room whose
participant list is already empty is deleted by the unconditional
empty-room cleanup. -/
theorem C5_duplicate_leave_amended :
    ∀ (s : ServerState) (uid sid : Nat) (name : String) (roomId : Nat) (reason : String),
      (∀ room, lookupA roomId s.activeRooms = some room →
        ∀ p ∈ room.participants, p.odtId ≠ uid) →
      (handleUserLeave s uid sid name roomId reason).2 = [] ∧
      (lookupA roomId s.activeRooms = none →
        (handleUserLeave s uid sid name roomId reason).1.activeRooms = s.activeRooms) ∧
      (∀ room, lookupA roomId s.activeRooms = some room → room.participants ≠ [] →
        (handleUserLeave s uid sid name roomId reason).1.activeRooms = s.activeRooms) ∧
      (∀ room, lookupA roomId s.activeRooms = some room → room.participants = [] →
        (handleUserLeave s uid sid name roomId reason).1.activeRooms =
          removeA roomId s.activeRooms) := by
  intro s uid sid name roomId reason hnm
  cases hr : lookupA roomId s.activeRooms with
  | none =>
    refine ⟨?_, fun _ => ?_, fun room hsome => ?_, fun room hsome => ?_⟩
    · rw [handleUserLeave_msgs, hr]
    · rw [handleUserLeave_activeRooms, hr]
    · simp at hsome
    · simp at hsome
  | some room =>
    have hfilter : room.participants.filter (fun p => p.odtId != uid) = room.participants :=
      List.filter_eq_self.2 (fun p hp => by
        simp only [bne_iff_ne, ne_eq, decide_eq_true_eq]
        exact hnm room hr p hp)
    refine ⟨?_, fun hn => ?_, fun room1 hsome hne => ?_, fun room1 hsome hemp => ?_⟩
    · rw [handleUserLeave_msgs, hr]
      dsimp only
      rw [hfilter, if_neg]
      intro hcon
      exact hcon rfl
    · simp at hn
    · injection hsome with hroom
      subst hroom
      rw [handleUserLeave_activeRooms, hr]
      dsimp only
      rw [hfilter, if_neg,
        show ({ room with participants := room.participants } : Room) = room from rfl]
      · exact setA_self hr
      · intro h0
        exact hne (List.length_eq_zero.1 h0)
    · injection hsome with hroom
      subst hroom
      rw [handleUserLeave_activeRooms, hr]
      dsimp only
      rw [hfilter, if_pos (by rw [hemp]; rfl)]

/-- Witness for C5 (amended): a stale leave aimed at a never-created
room emits nothing. -/
theorem C5_witness :
    (handleUserLeave initState 2 9 "b" 5 "user left").2 = [] :=
  (C5_duplicate_leave_amended initState 2 9 "b" 5 "user left"
    (fun room hsome => by simp [initState, lookupA] at hsome)).1

/-! ### Claim C8: relay stamps the authenticated sender -/

/-- C8: every forwarded offer, answer and candidate carries the
authenticated identity of the sending connection, and two inbound
payloads that differ only in claimed sender fields forward to identical
messages. -/
theorem C8_relay_sender_integrity :
    ∀ u : AuthUser,
      (∀ p : OfferPayload, (relayOffer u p).fromId = u.id ∧
        (relayOffer u p).userName = some u.name) ∧
      (∀ p : AnswerPayload, (relayAnswer u p).fromId = u.id ∧
        (relayAnswer u p).userName = some u.name) ∧
      (∀ p : CandidatePayload, (relayIceCandidate u p).fromId = u.id) ∧
      (∀ p q : OfferPayload, p.offer = q.offer → p.roomId = q.roomId →
        relayOffer u p = relayOffer u q) ∧
      (∀ p q : AnswerPayload, p.answer = q.answer → p.roomId = q.roomId →
        relayAnswer u p = relayAnswer u q) ∧
      (∀ p q : CandidatePayload, p.candidate = q.candidate → p.roomId = q.roomId →
        relayIceCandidate u p = relayIceCandidate u q) := by
  intro u
  refine ⟨fun p => ⟨rfl, rfl⟩, fun p => ⟨rfl, rfl⟩, fun p => rfl, ?_, ?_, ?_⟩
  · intro p q h1 h2
    simp [relayOffer, h1, h2]
  · intro p q h1 h2
    simp [relayAnswer, h1, h2]
  · intro p q h1 h2
    simp [relayIceCandidate, h1, h2]

/-- Witness for C8: a payload with forged claimed-sender fields forwards
identically to a clean one and carries the authenticated identity. -/
theorem C8_witness :
    relayOffer { id := 1, name := "a" }
        { offer := "sdp", toId := none, roomId := 7, claimedFrom := some 99,
          claimedName := some "mallory" } =
      relayOffer { id := 1, name := "a" }
        { offer := "sdp", toId := some 4, roomId := 7, claimedFrom := none,
          claimedName := none } ∧
    (relayOffer { id := 1, name := "a" }
        { offer := "sdp", toId := none, roomId := 7, claimedFrom := some 99,
          claimedName := some "mallory" }).fromId = 1 :=
  ⟨(C8_relay_sender_integrity { id := 1, name := "a" }).2.2.2.1 _ _ rfl rfl,
    ((C8_relay_sender_integrity { id := 1, name := "a" }).1 _).1⟩

/-! ### Claim C6: network classification and bitrate table -/

/-- The classification is good exactly below both strict thresholds. -/
theorem classifyQuality_good {rtt packetLossRate : ℚ}
    (h1 : rtt ≤ 100) (h2 : packetLossRate ≤ 2 / 100) :
    classifyQuality rtt packetLossRate = NetworkQuality.good := by
  unfold classifyQuality GOOD_RTT MEDIUM_RTT GOOD_PACKET_LOSS MEDIUM_PACKET_LOSS
  rw [if_neg (by push_neg; constructor <;> linarith),
    if_neg (by push_neg; constructor <;> linarith)]

/-- The classification is medium in the band between the thresholds. -/
theorem classifyQuality_medium {rtt packetLossRate : ℚ}
    (h : 100 < rtt ∨ 2 / 100 < packetLossRate)
    (h1 : rtt ≤ 250) (h2 : packetLossRate ≤ 5 / 100) :
    classifyQuality rtt packetLossRate = NetworkQuality.medium := by
  unfold classifyQuality GOOD_RTT MEDIUM_RTT GOOD_PACKET_LOSS MEDIUM_PACKET_LOSS
  rw [if_neg (by push_neg; constructor <;> linarith), if_pos h]

/-- The classification is poor strictly above either upper threshold. -/
theorem classifyQuality_poor {rtt packetLossRate : ℚ}
    (h : 250 < rtt ∨ 5 / 100 < packetLossRate) :
    classifyQuality rtt packetLossRate = NetworkQuality.poor := by
  unfold classifyQuality MEDIUM_RTT MEDIUM_PACKET_LOSS
  rw [if_pos h]

/-- With no TURN relay in use the target is the raw table value. -/
theorem calculateTargetBitrate_no_turn (rtt packetLossRate : ℚ) :
    calculateTargetBitrate rtt packetLossRate false =
      qualityBitrate (classifyQuality rtt packetLossRate) := by
  unfold calculateTargetBitrate
  rw [if_neg]
  simp

/-- C6 counterexample: at a round-trip time of exactly 250 ms with no
loss, the claim classifies the network as poor (RTT at least 250) and
predicts 800 kbps, but the code's strict comparison yields medium and
2 Mbps. -/
theorem C6_counterexample :
    calculateTargetBitrate 250 0 false = 2000000 ∧
    MEDIUM_RTT ≤ (250 : ℚ) ∧ (2000000 : Nat) ≠ 800000 := by
  refine ⟨?_, by norm_num [MEDIUM_RTT], by norm_num⟩
  rw [calculateTargetBitrate_no_turn, classifyQuality_medium (by norm_num) (by norm_num) (by norm_num)]
  rfl

/-- C6 (amended): the classification uses strict comparisons: good when
RTT is at most 100 ms and loss at most 2 percent, poor when RTT exceeds
250 ms or loss exceeds 5 percent, medium otherwise; the target bitrate is
the fixed table value good 5 Mbps, medium 2 Mbps, poor 800 kbps,
independently of the starting bitrate (the function never reads the
currently applied bitrate). -/
theorem C6_bitrate_classification_amended :
    ∀ rtt packetLossRate : ℚ,
      (rtt ≤ 100 ∧ packetLossRate ≤ 2 / 100 →
        calculateTargetBitrate rtt packetLossRate false = 5000000) ∧
      ((100 < rtt ∨ 2 / 100 < packetLossRate) ∧ rtt ≤ 250 ∧ packetLossRate ≤ 5 / 100 →
        calculateTargetBitrate rtt packetLossRate false = 2000000) ∧
      (250 < rtt ∨ 5 / 100 < packetLossRate →
        calculateTargetBitrate rtt packetLossRate false = 800000) := by
  intro rtt packetLossRate
  refine ⟨fun h => ?_, fun h => ?_, fun h => ?_⟩
  · rw [calculateTargetBitrate_no_turn, classifyQuality_good h.1 h.2]
    rfl
  · rw [calculateTargetBitrate_no_turn, classifyQuality_medium h.1 h.2.1 h.2.2]
    rfl
  · rw [calculateTargetBitrate_no_turn, classifyQuality_poor h]
    rfl

/-- Witness for C6 (amended) at a good-quality sample. -/
theorem C6_witness :
    calculateTargetBitrate 50 (1 / 100) false = 5000000 :=
  (C6_bitrate_classification_amended 50 (1 / 100)).1 (by norm_num)

/-! ### Claim C7: hysteresis and relay cap -/

/-- With a TURN relay active the computed target never exceeds the cap. -/
theorem calculateTargetBitrate_turn_le_cap (rtt packetLossRate : ℚ) :
    calculateTargetBitrate rtt packetLossRate true ≤ BITRATE_TURN_CAP := by
  unfold calculateTargetBitrate
  dsimp only
  by_cases h : (true : Bool) = true ∧
      qualityBitrate (classifyQuality rtt packetLossRate) > BITRATE_TURN_CAP
  · rw [if_pos h]
  · rw [if_neg h]
    have h2 := not_and.1 h rfl
    omega

/-- A tick that applies a bitrate passed the hysteresis check, stepped
the state to the applied value, and applied the computed target. -/
theorem controllerTick_some {st : CtrlState} {sm : Sample} {st1 : CtrlState} {b : Nat}
    (h : controllerTick st sm = (st1, some b)) :
    st.currentBitrate < 10 * (max b st.currentBitrate - min b st.currentBitrate) ∧
    st1 = { st with currentBitrate := b } ∧
    b = calculateTargetBitrate sm.rtt sm.packetLossRate st.isUsingTurn := by
  unfold controllerTick at h
  dsimp only at h
  by_cases hc : st.currentBitrate <
      10 * (max (calculateTargetBitrate sm.rtt sm.packetLossRate st.isUsingTurn) st.currentBitrate -
        min (calculateTargetBitrate sm.rtt sm.packetLossRate st.isUsingTurn) st.currentBitrate)
  · rw [if_pos hc] at h
    obtain ⟨h1, h2⟩ := Prod.mk.injEq .. ▸ h
    cases h2
    exact ⟨hc, h1.symm ▸ rfl, rfl⟩
  · rw [if_neg hc] at h
    simp at h

/-- A tick that applies nothing leaves the state unchanged. -/
theorem controllerTick_none {st : CtrlState} {sm : Sample} {st1 : CtrlState}
    (h : controllerTick st sm = (st1, none)) : st1 = st := by
  unfold controllerTick at h
  dsimp only at h
  by_cases hc : st.currentBitrate <
      10 * (max (calculateTargetBitrate sm.rtt sm.packetLossRate st.isUsingTurn) st.currentBitrate -
        min (calculateTargetBitrate sm.rtt sm.packetLossRate st.isUsingTurn) st.currentBitrate)
  · rw [if_pos hc] at h
    simp at h
  · rw [if_neg hc] at h
    obtain ⟨h1, _⟩ := Prod.mk.injEq .. ▸ h
    exact h1.symm

/-- Every application recorded by the periodic ticks changes the applied
value by more than 10 percent and respects the TURN cap when the relay
flag is set. -/
theorem ticksRun_events (samples : List Sample) :
    ∀ st : CtrlState, ∀ pb ∈ (ticksRun st samples).2,
      pb.1 < 10 * (max pb.2 pb.1 - min pb.2 pb.1) ∧
      (st.isUsingTurn = true → pb.2 ≤ BITRATE_TURN_CAP) := by
  induction samples with
  | nil =>
    intro st pb hpb
    simp [ticksRun] at hpb
  | cons sm rest ih =>
    intro st pb hpb
    unfold ticksRun at hpb
    rcases htick : controllerTick st sm with ⟨st1, ob⟩
    rw [htick] at hpb
    cases ob with
    | some b =>
      dsimp only at hpb
      obtain ⟨hcond, hst1, hb⟩ := controllerTick_some htick
      rcases List.mem_cons.1 hpb with he | hm
      · subst he
        refine ⟨hcond, fun ht => ?_⟩
        rw [hb, ht]
        exact calculateTargetBitrate_turn_le_cap sm.rtt sm.packetLossRate
      · have hrec := ih st1 pb hm
        refine ⟨hrec.1, fun ht => hrec.2 ?_⟩
        rw [hst1]
        exact ht
    | none =>
      dsimp only at hpb
      rw [controllerTick_none htick] at hpb
      exact ih st pb hpb

/-- C7 counterexample: starting the controller while the TURN relay flag
is already set (a restart after relay detection) applies the 3.5 Mbps
start bitrate even though it differs by 0 percent from the currently
applied value and exceeds the 1.5 Mbps relay cap. -/
theorem C7_counterexample :
    (startAdaptiveBitrate true 3500000 []).2 = [(3500000, 3500000)] ∧
    ¬ (3500000 : Nat) < 10 * (max 3500000 3500000 - min 3500000 3500000) ∧
    ¬ (3500000 : Nat) ≤ BITRATE_TURN_CAP := by
  refine ⟨rfl, by decide, by decide⟩

/-- C7 (amended): every bitrate application made by a periodic sampling
tick changes the applied value by more than the 10 percent hysteresis
threshold and, while the TURN relay flag is set, never exceeds the
1.5 Mbps relay cap; the initial application made when the controller
starts sets the 3.5 Mbps start bitrate unconditionally, bypassing both
checks. -/
theorem C7_controller_amended :
    ∀ (isUsingTurn : Bool) (c0 : Nat) (samples : List Sample),
      (startAdaptiveBitrate isUsingTurn c0 samples).2 =
        (c0, BITRATE_START) ::
          (ticksRun { currentBitrate := BITRATE_START, isUsingTurn := isUsingTurn } samples).2 ∧
      ∀ pb ∈ (ticksRun { currentBitrate := BITRATE_START, isUsingTurn := isUsingTurn } samples).2,
        pb.1 < 10 * (max pb.2 pb.1 - min pb.2 pb.1) ∧
        (isUsingTurn = true → pb.2 ≤ BITRATE_TURN_CAP) := by
  intro isUsingTurn c0 samples
  exact ⟨rfl, fun pb hpb => ticksRun_events samples _ pb hpb⟩

/-- Witness for C7 (amended): one poor-network sample on a direct path
makes the tick apply 800 kbps, a change of more than 10 percent. -/
theorem C7_witness :
    (3500000 : Nat) < 10 * (max 800000 3500000 - min 800000 3500000) ∧
    ((false : Bool) = true → (800000 : Nat) ≤ BITRATE_TURN_CAP) :=
  (C7_controller_amended false 3500000 [{ rtt := 300, packetLossRate := 0 }]).2
    (3500000, 800000) (by decide)

/-! ### Claim C2: candidate buffer flush -/

/-- Unfolding one buffer event. -/
theorem runBuf_cons (s : BufState) (e : BufEv) (evs : List BufEv) :
    runBuf s (e :: evs) = runBuf (stepBuf s e) evs := rfl

/-- Applying the snapshotted candidates one flush step at a time moves
them, in order, onto the applied list. -/
theorem flushSteps_apply (f : List Nat) :
    ∀ p ap : List Nat,
      runBuf { pending := p, flushing := f, applied := ap, remoteDescriptionSet := true }
        (List.replicate f.length BufEv.flushStep) =
      { pending := p, flushing := [], applied := ap ++ f,
        remoteDescriptionSet := true } := by
  induction f with
  | nil =>
    intro p ap
    simp [runBuf]
  | cons c rest ih =>
    intro p ap
    rw [List.length_cons, List.replicate_succ, runBuf_cons]
    have hstep : stepBuf
        { pending := p, flushing := c :: rest, applied := ap, remoteDescriptionSet := true }
        BufEv.flushStep =
        { pending := p, flushing := rest, applied := ap ++ [c],
          remoteDescriptionSet := true } := rfl
    rw [hstep, ih p (ap ++ [c])]
    simp

/-- C2 counterexample: with candidates 1 and 2 buffered, a flush begins
once the remote description is applied; candidate 3 arrives between the
two flush iterations.  The claim says such a candidate is queued for a
subsequent flush and that arrival order is preserved, but the code
applies it immediately (the remote description being set): the queue
stays empty and the application order is 1, 3, 2 instead of the arrival
order 1, 2, 3. -/
theorem C2_counterexample :
    (runBuf initBuf [BufEv.recv 1, BufEv.recv 2, BufEv.setRemote, BufEv.flushStart,
        BufEv.flushStep, BufEv.recv 3, BufEv.flushStep]).applied = [1, 3, 2] ∧
    (runBuf initBuf [BufEv.recv 1, BufEv.recv 2, BufEv.setRemote, BufEv.flushStart,
        BufEv.flushStep, BufEv.recv 3, BufEv.flushStep]).pending = [] ∧
    [1, 3, 2] ≠ [1, 2, 3] := by
  refine ⟨by decide, by decide, by decide⟩

/-- C2 (amended): every candidate enqueued while no remote description
was set and still pending when the description is applied is applied by
the triggered flush, in original arrival order, none dropped, and the
flush clears the queue before applying anything; a candidate arriving
once the remote description is set (in particular during the flush) is
applied immediately rather than queued, so it is not lost, though it may
interleave with the remaining snapshotted candidates. -/
theorem C2_flush_amended :
    (∀ q ap : List Nat,
      runBuf { pending := q, flushing := [], applied := ap, remoteDescriptionSet := false }
          (BufEv.setRemote :: BufEv.flushStart :: List.replicate q.length BufEv.flushStep) =
        { pending := [], flushing := [], applied := ap ++ q,
          remoteDescriptionSet := true } ∧
      (stepBuf (stepBuf (⟨q, [], ap, false⟩ : BufState) BufEv.setRemote)
        BufEv.flushStart).pending = []) ∧
    (∀ (s : BufState) (c : Nat), s.remoteDescriptionSet = true →
      stepBuf s (BufEv.recv c) = { s with applied := s.applied ++ [c] }) := by
  constructor
  · intro q ap
    have hstate : stepBuf (stepBuf (⟨q, [], ap, false⟩ : BufState) BufEv.setRemote)
        BufEv.flushStart =
        { pending := [], flushing := q, applied := ap, remoteDescriptionSet := true } := by
      simp [stepBuf]
    constructor
    · rw [runBuf_cons, runBuf_cons, hstate, flushSteps_apply]
    · rw [hstate]
  · intro s c hremote
    unfold stepBuf
    dsimp only
    rw [if_pos hremote]

/-- Witness for C2 (amended): two buffered candidates flushed in order,
then an immediate application after the description is set. -/
theorem C2_witness :
    runBuf (⟨[4, 5], [], [], false⟩ : BufState)
      (BufEv.setRemote :: BufEv.flushStart :: List.replicate 2 BufEv.flushStep) =
      (⟨[], [], [4, 5], true⟩ : BufState) ∧
    stepBuf (⟨[], [], [4, 5], true⟩ : BufState) (BufEv.recv 6) =
      (⟨[], [], [4, 5, 6], true⟩ : BufState) :=
  ⟨(C2_flush_amended.1 [4, 5] []).1, C2_flush_amended.2 _ 6 rfl⟩

/-! ### Claim C3: identity lock -/

/-- C3: once the identity lock is set, no user-joined, offer-fallback,
answer-fallback or room-users event changes the stored remote identity or
clears the lock; the user-left event is the only one that clears the
identity, and it also resets the lock. -/
theorem C3_identity_lock :
    ∀ (me : Nat) (s : ClientSession) (e : CEvent), s.remoteUserLocked = true →
      (e ≠ CEvent.userLeft →
        (stepClient me s e).remoteUser = s.remoteUser ∧
        (stepClient me s e).remoteUserLocked = true) ∧
      (e = CEvent.userLeft →
        (stepClient me s e).remoteUser = none ∧
        (stepClient me s e).remoteUserLocked = false) := by
  intro me s e hlock
  constructor
  · intro hne
    cases e with
    | userJoined odtId userName =>
      by_cases h1 : odtId = me <;>
        simp [stepClient, safeSetRemoteUser, hlock, h1]
    | receiveOffer fromId userName =>
      simp [stepClient, hlock]
    | receiveAnswer fromId userName =>
      simp [stepClient, hlock]
    | userLeft => exact absurd rfl hne
    | roomUsers participants =>
      unfold stepClient
      dsimp only
      by_cases h1 : 0 < participants.length
      · rw [if_pos h1]
        cases hof : participants.filter (fun p => p.odtId != me) with
        | nil => simp [hlock]
        | cons e0 rest =>
          rw [if_pos (by simp)]
          dsimp only
          by_cases h2 : e0.odtId = me <;>
            simp [safeSetRemoteUser, hlock, h2]
      · rw [if_neg h1]
        exact ⟨rfl, hlock⟩
  · intro he
    subst he
    exact ⟨rfl, rfl⟩

/-- Witness for C3: a locked session ignores an offer fallback and
user-left clears it. -/
theorem C3_witness :
    (CEvent.receiveOffer 3 "c" ≠ CEvent.userLeft →
      (stepClient 1
        { remoteUser := some { odtId := 2, userName := "b" },
          remoteUserLocked := true, role := some Role.caller }
        (CEvent.receiveOffer 3 "c")).remoteUser =
        ({ remoteUser := some { odtId := 2, userName := "b" },
           remoteUserLocked := true, role := some Role.caller } : ClientSession).remoteUser ∧
      (stepClient 1
        { remoteUser := some { odtId := 2, userName := "b" },
          remoteUserLocked := true, role := some Role.caller }
        (CEvent.receiveOffer 3 "c")).remoteUserLocked = true) ∧
    (CEvent.receiveOffer 3 "c" = CEvent.userLeft →
      (stepClient 1
        { remoteUser := some { odtId := 2, userName := "b" },
          remoteUserLocked := true, role := some Role.caller }
        (CEvent.receiveOffer 3 "c")).remoteUser = none ∧
      (stepClient 1
        { remoteUser := some { odtId := 2, userName := "b" },
          remoteUserLocked := true, role := some Role.caller }
        (CEvent.receiveOffer 3 "c")).remoteUserLocked = false) :=
  C3_identity_lock 1
    { remoteUser := some { odtId := 2, userName := "b" },
      remoteUserLocked := true, role := some Role.caller }
    (CEvent.receiveOffer 3 "c") rfl

/-! ### Claim C4: never self identity -/

/-- The guarded setter never stores the local user's own id. -/
theorem safeSetRemoteUser_no_self (me : Nat) (s : ClientSession) (odtId : Nat)
    (userName : String) (canLock : Bool)
    (h : ∀ ru, s.remoteUser = some ru → ru.odtId ≠ me) :
    ∀ ru, (safeSetRemoteUser me s odtId userName canLock).1.remoteUser = some ru →
      ru.odtId ≠ me := by
  intro ru hru
  unfold safeSetRemoteUser at hru
  by_cases h1 : odtId = me
  · rw [if_pos h1] at hru
    exact h ru hru
  · rw [if_neg h1] at hru
    by_cases h2 : s.remoteUserLocked = true
    · rw [if_pos h2] at hru
      exact h ru hru
    · rw [if_neg h2] at hru
      dsimp only at hru
      cases hru
      exact h1

/-- Every event handler preserves the no-self-identity property. -/
theorem stepClient_no_self (me : Nat) (s : ClientSession) (e : CEvent)
    (h : ∀ ru, s.remoteUser = some ru → ru.odtId ≠ me) :
    ∀ ru, (stepClient me s e).remoteUser = some ru → ru.odtId ≠ me := by
  cases e with
  | userJoined odtId userName =>
    exact safeSetRemoteUser_no_self me _ odtId userName true h
  | receiveOffer fromId userName =>
    intro ru hru
    unfold stepClient at hru
    dsimp only at hru
    by_cases hl : s.remoteUserLocked = true
    · rw [if_pos hl] at hru
      exact h ru hru
    · rw [if_neg hl] at hru
      exact safeSetRemoteUser_no_self me s fromId userName true h ru hru
  | receiveAnswer fromId userName =>
    intro ru hru
    unfold stepClient at hru
    dsimp only at hru
    by_cases hl : s.remoteUserLocked = true
    · rw [if_pos hl] at hru
      exact h ru hru
    · rw [if_neg hl] at hru
      exact safeSetRemoteUser_no_self me s fromId userName true h ru hru
  | userLeft =>
    intro ru hru
    simp [stepClient] at hru
  | roomUsers participants =>
    intro ru hru
    unfold stepClient at hru
    dsimp only at hru
    by_cases h1 : 0 < participants.length
    · rw [if_pos h1] at hru
      cases hof : participants.filter (fun p => p.odtId != me) with
      | nil =>
        rw [hof] at hru
        simp at hru
        exact h ru hru
      | cons e0 rest =>
        rw [hof] at hru
        rw [if_pos (by simp)] at hru
        dsimp only at hru
        exact safeSetRemoteUser_no_self me
          { remoteUser := s.remoteUser, remoteUserLocked := s.remoteUserLocked,
            role := some Role.joiner }
          e0.odtId e0.userName true h ru hru
    · rw [if_neg h1] at hru
      exact h ru hru

/-- C4: over every event sequence the stored remote identity never equals
the local participant's own id: the self-identity guard protects every
assignment path, including the offer and answer fallbacks and the
room-users seeding. -/
theorem C4_no_self_identity :
    ∀ (me : Nat) (evs : List CEvent) (ru : RemoteUser),
      (runClient me evs).remoteUser = some ru → ru.odtId ≠ me := by
  intro me evs
  have hfold : ∀ s : ClientSession, (∀ ru, s.remoteUser = some ru → ru.odtId ≠ me) →
      ∀ ru, (evs.foldl (stepClient me) s).remoteUser = some ru → ru.odtId ≠ me := by
    induction evs with
    | nil => intro s hs; exact hs
    | cons e rest ih =>
      intro s hs
      exact ih _ (stepClient_no_self me s e hs)
  exact hfold initSession (by intro ru hru; simp [initSession] at hru)

/-- Witness for C4: after a user-joined event the stored identity is the
peer, not the local user. -/
theorem C4_witness : (2 : Nat) ≠ 1 :=
  C4_no_self_identity 1 [CEvent.userJoined 2 "b"] { odtId := 2, userName := "b" }
    (by decide)

/-! ### Claim C10: performCleanup idempotence -/

/-- Recognizer for the leave-room emission among cleanup actions. -/
def isLeaveEmit : CleanupAction → Bool
  | CleanupAction.emitLeaveRoom _ => true
  | CleanupAction.webrtcCleanup => false

/-- After any performCleanup call the guard flag is set. -/
theorem performCleanup_flag (flag sp : Bool) (rid : Option Nat) :
    (performCleanup flag sp rid).1 = true := by
  unfold performCleanup
  split_ifs <;> rfl

/-- Once the flag is set, every further invocation does nothing. -/
theorem runCleanups_after_flag (calls : List (Bool × Option Nat)) :
    runCleanups true calls = (true, []) := by
  induction calls with
  | nil => rfl
  | cons c rest ih =>
    obtain ⟨sp, rid⟩ := c
    simp [runCleanups, performCleanup, ih]

/-- C10: performCleanup is idempotent within a call session: after any
first invocation, every further invocation performs no action at all (no
leave-room emission and no WebRTC cleanup), and over any sequence of
invocations in one session at most one leave-room message is emitted. -/
theorem C10_performCleanup_idempotent :
    (∀ (flag sp sp2 : Bool) (rid rid2 : Option Nat),
      (performCleanup (performCleanup flag sp rid).1 sp2 rid2).2 = []) ∧
    (∀ calls : List (Bool × Option Nat),
      ((runCleanups false calls).2.filter isLeaveEmit).length ≤ 1) := by
  constructor
  · intro flag sp sp2 rid rid2
    rw [performCleanup_flag]
    rfl
  · intro calls
    cases calls with
    | nil => simp [runCleanups]
    | cons c rest =>
      obtain ⟨sp, rid⟩ := c
      have hrest : runCleanups (performCleanup false sp rid).1 rest = (true, []) := by
        rw [performCleanup_flag]
        exact runCleanups_after_flag rest
      unfold runCleanups
      dsimp only
      rw [hrest]
      cases sp <;> cases rid <;> simp [performCleanup, isLeaveEmit]

end VideoCall
